import Mathlib

/-!
Verification development for the `rust_http_proxy` repository.

The repository snapshot contains two crates:
* `src/rust_http_proxy/src/proxy.rs` — request dispatcher (`ProxyHandler::proxy`),
  the authenticator (`check_auth`), the CONNECT branch, the forward-HTTP branch
  and the reverse-proxy header rewrite (`ProxyHandler::reverse_proxy`);
* `src/src/main.rs` — connection lifecycle supervisor (`serve`) with the
  per-connection `Context { instant, upgraded }` and its idle-timer loop.

This file shallowly embeds those functions.  Strings coming off the wire
(header values) are modelled as byte lists (`List Nat`); Rust `String`s that
only flow between in-memory tables are modelled as Lean `String`s.  Header
maps are modelled as association lists in insertion order with the
`http::HeaderMap` operations `get` (first value), `append` (push at end),
`insert` (drop every value of the name, then add one) and `remove` (drop
every value of the name).  Header names are kept in their canonical
lower-case form, mirroring `http::HeaderName`'s case-insensitive equality.
-/

namespace RustHttpProxy

/-- `http::HeaderValue::to_str` succeeds iff every byte is visible ASCII
(32 ≤ b < 127) or horizontal tab. -/
def isVisibleAscii (b : Nat) : Bool :=
  (32 ≤ b && b < 127) || b == 9

/-- Bytes of a header value rendered as a string once `to_str` succeeded
(identity on the underlying bytes). -/
def asciiString (bs : List Nat) : String :=
  String.mk (bs.map (fun b => Char.ofNat b))

/-- `HeaderValue::to_str`: `some` of the decoded string when all bytes are
visible ASCII, `none` otherwise. -/
def toStrOpt (bs : List Nat) : Option String :=
  if bs.all isVisibleAscii then some (asciiString bs) else none

/-- `HashMap::get` on the credential table, keys taken by their UTF-8 bytes
(`&str` equality in Rust is byte equality). -/
def lookupAssoc (table : List (List Nat × String)) (v : List Nat) : Option String :=
  (table.find? (fun p => p.1 == v)).map (fun p => p.2)

/-- Shallow embedding of `check_auth` from `src/rust_http_proxy/src/proxy.rs`
(lines 428–466).  `header` is the raw value of the header named by
`header_name` (`None` when absent).  The source initialises
`username = "unkonwn"` (sic) and `authed = true`; with a non-empty table it
sets `authed = false` and only flips it back on a byte-exact table hit of a
header value that survives `to_str`. -/
def check_auth (table : List (List Nat × String)) (header : Option (List Nat)) :
    String × Bool :=
  if table.isEmpty then ("unkonwn", true)
  else
    match header with
    | none => ("unkonwn", false)
    | some bytes =>
      if bytes.all isVisibleAscii then
        match lookupAssoc table bytes with
        | some u => (u, true)
        | none => ("unkonwn", false)
      else ("unkonwn", false)

/-- `http::HeaderMap::remove`: drops every value stored under the name. -/
def removeHeader (name : String) (hs : List (String × String)) :
    List (String × String) :=
  hs.filter (fun p => p.1 != name)

/-- `http::HeaderMap::insert`: drops every value stored under the name, then
associates the single new value with it. -/
def insertHeader (name value : String) (hs : List (String × String)) :
    List (String × String) :=
  removeHeader name hs ++ [(name, value)]

/-- `http::HeaderMap::get`: the first value stored under the name. -/
def getHeader (name : String) (hs : List (String × String)) : Option String :=
  (hs.find? (fun p => p.1 == name)).map (fun p => p.2)

/-- All values stored under a name, in order (`HeaderMap::get_all`). -/
def headerValues (name : String) (hs : List (String × String)) : List String :=
  (hs.filter (fun p => p.1 == name)).map (fun p => p.2)

/-- `http::HeaderValue::from_str` accepts a character iff each of its UTF-8
bytes is ≥ 32 and ≠ 127, or is horizontal tab; on `String`s this byte
condition coincides with the same condition on the character's code point. -/
def isValidHeaderValueChar (c : Char) : Bool :=
  (32 ≤ c.toNat && c.toNat != 127) || c.toNat == 9

/-- `HeaderValue::from_str` succeeds on the whole string. -/
def headerValueValid (s : String) : Bool :=
  s.data.all isValidHeaderValueChar

/-- Shallow embedding of the outbound header construction of
`ProxyHandler::reverse_proxy` (`src/rust_http_proxy/src/proxy.rs`,
lines 330–371): every inbound header is copied into the builder, then `Host`
is removed and re-inserted as the upstream `host:port` (falling back to the
literal `"unknown"` when `HeaderValue::from_str` fails), and when neither
`Content-Length` nor `Transfer-Encoding` is present afterwards,
`Transfer-Encoding: chunked` is inserted. -/
def reverse_proxy_host_step (inHeaders : List (String × String)) (target : String) :
    List (String × String) :=
  let copied := inHeaders
  let afterRemove := removeHeader "host" copied
  let hostValue := if headerValueValid target then target else "unknown"
  insertHeader "host" hostValue afterRemove

def reverse_proxy_headers (inHeaders : List (String × String)) (target : String) :
    List (String × String) :=
  let afterHost := reverse_proxy_host_step inHeaders target
  if (getHeader "content-length" afterHost).isNone
      && (getHeader "transfer-encoding" afterHost).isNone then
    insertHeader "transfer-encoding" "chunked" afterHost
  else afterHost

theorem getHeader_eq_head (n : String) (hs : List (String × String)) :
    getHeader n hs = (headerValues n hs).head? := by
  induction hs with
  | nil => rfl
  | cons p t ih =>
    unfold getHeader headerValues at ih ⊢
    by_cases hp : (p.1 == n) = true
    · simp [List.find?, List.filter, hp]
    · have hp' : (p.1 == n) = false := by simpa using hp
      simp only [List.find?, List.filter, hp']
      exact ih

theorem headerValues_removeHeader_ne (m n : String) (hmn : ¬ m = n)
    (hs : List (String × String)) :
    headerValues n (removeHeader m hs) = headerValues n hs := by
  unfold headerValues removeHeader
  rw [List.filter_filter]
  apply congrArg
  apply List.filter_congr
  intro p _
  by_cases hp : p.1 = n
  · simp [hp]
    exact fun h => hmn h.symm
  · simp [hp]

theorem headerValues_insertHeader_self (n v : String) (hs : List (String × String)) :
    headerValues n (insertHeader n v hs) = [v] := by
  unfold insertHeader headerValues
  rw [List.filter_append]
  have h1 : (removeHeader n hs).filter (fun p => p.1 == n) = [] := by
    unfold removeHeader
    rw [List.filter_filter]
    apply List.filter_eq_nil_iff.mpr
    intro p _
    by_cases hp : p.1 = n <;> simp [hp]
  rw [h1]
  simp

theorem headerValues_insertHeader_ne (m n v : String) (hmn : ¬ m = n)
    (hs : List (String × String)) :
    headerValues n (insertHeader m v hs) = headerValues n hs := by
  unfold insertHeader
  have h2 : headerValues n (removeHeader m hs ++ [(m, v)])
      = headerValues n (removeHeader m hs) ++ headerValues n [(m, v)] := by
    unfold headerValues
    rw [List.filter_append, List.map_append]
  rw [h2]
  have h3 : headerValues n [(m, v)] = [] := by
    unfold headerValues
    simp [hmn]
  rw [h3, List.append_nil]
  exact headerValues_removeHeader_ne m n hmn hs

theorem getHeader_eq_none_iff (n : String) (hs : List (String × String)) :
    getHeader n hs = none ↔ headerValues n hs = [] := by
  rw [getHeader_eq_head]
  cases headerValues n hs with
  | nil => simp
  | cons a t => simp

theorem getHeader_removeHeader_ne (m n : String) (hmn : ¬ m = n)
    (hs : List (String × String)) :
    getHeader n (removeHeader m hs) = getHeader n hs := by
  rw [getHeader_eq_head, getHeader_eq_head, headerValues_removeHeader_ne m n hmn]

theorem getHeader_insertHeader_ne (m n v : String) (hmn : ¬ m = n)
    (hs : List (String × String)) :
    getHeader n (insertHeader m v hs) = getHeader n hs := by
  rw [getHeader_eq_head, getHeader_eq_head, headerValues_insertHeader_ne m n v hmn]

theorem headerValues_host_step_ne (n : String) (hn : ¬ "host" = n)
    (inHeaders : List (String × String)) (target : String) :
    headerValues n (reverse_proxy_host_step inHeaders target)
      = headerValues n inHeaders := by
  unfold reverse_proxy_host_step
  rw [headerValues_insertHeader_ne _ _ _ hn, headerValues_removeHeader_ne _ _ hn]

theorem getHeader_host_step_ne (n : String) (hn : ¬ "host" = n)
    (inHeaders : List (String × String)) (target : String) :
    getHeader n (reverse_proxy_host_step inHeaders target)
      = getHeader n inHeaders := by
  rw [getHeader_eq_head, getHeader_eq_head, headerValues_host_step_ne n hn]

theorem headerValues_host_step_self (inHeaders : List (String × String))
    (target : String) :
    headerValues "host" (reverse_proxy_host_step inHeaders target)
      = [if headerValueValid target then target else "unknown"] := by
  unfold reverse_proxy_host_step
  rw [headerValues_insertHeader_self]

/-- C6: the outbound headers of a reverse-proxied request carry exactly one
`Host` header, equal to the `host:port` of the selected upstream (provided
that string is a valid header value, which `HeaderValue::from_str` checks);
consequently any inbound `Host` value different from the upstream target does
not occur among the outbound `Host` values. -/
theorem reverse_proxy_host_rewrite (inHeaders : List (String × String))
    (target : String) (hv : headerValueValid target = true) :
    headerValues "host" (reverse_proxy_headers inHeaders target) = [target]
    ∧ ∀ v ∈ headerValues "host" inHeaders, v ≠ target →
        v ∉ headerValues "host" (reverse_proxy_headers inHeaders target) := by
  have key : headerValues "host" (reverse_proxy_headers inHeaders target)
      = [target] := by
    unfold reverse_proxy_headers
    dsimp only
    split
    · rw [headerValues_insertHeader_ne _ _ _ (by decide),
        headerValues_host_step_self]
      simp [hv]
    · rw [headerValues_host_step_self]
      simp [hv]
  refine ⟨key, ?_⟩
  intro v _ hvne
  rw [key]
  simp [hvne]

/-- C6 witness: the theorem applied to a concrete inbound header list and a
concrete upstream target. -/
theorem reverse_proxy_host_rewrite_witness :
    headerValues "host"
        (reverse_proxy_headers [("host", "orig.example")] "up.example:8080")
      = ["up.example:8080"] :=
  (reverse_proxy_host_rewrite [("host", "orig.example")] "up.example:8080"
    (by decide)).1

/-- C7: when the inbound headers of a reverse-proxied request contain neither
`Content-Length` nor `Transfer-Encoding`, the outbound request contains
exactly one `Transfer-Encoding: chunked` header and zero `Content-Length`
headers; when either of the two is already present, no `Transfer-Encoding`
header is added (the outbound `Transfer-Encoding` values are exactly the
inbound ones). -/
theorem reverse_proxy_transfer_encoding (inHeaders : List (String × String))
    (target : String) :
    (getHeader "content-length" inHeaders = none
        ∧ getHeader "transfer-encoding" inHeaders = none →
      headerValues "transfer-encoding" (reverse_proxy_headers inHeaders target)
          = ["chunked"]
        ∧ headerValues "content-length" (reverse_proxy_headers inHeaders target)
          = [])
    ∧ ((getHeader "content-length" inHeaders).isSome
        ∨ (getHeader "transfer-encoding" inHeaders).isSome →
      headerValues "transfer-encoding" (reverse_proxy_headers inHeaders target)
        = headerValues "transfer-encoding" inHeaders) := by
  have hCL : getHeader "content-length" (reverse_proxy_host_step inHeaders target)
      = getHeader "content-length" inHeaders :=
    getHeader_host_step_ne _ (by decide) inHeaders target
  have hTE : getHeader "transfer-encoding" (reverse_proxy_host_step inHeaders target)
      = getHeader "transfer-encoding" inHeaders :=
    getHeader_host_step_ne _ (by decide) inHeaders target
  constructor
  · rintro ⟨h1, h2⟩
    have hcond : ((getHeader "content-length"
          (reverse_proxy_host_step inHeaders target)).isNone
        && (getHeader "transfer-encoding"
          (reverse_proxy_host_step inHeaders target)).isNone) = true := by
      rw [hCL, hTE, h1, h2]
      rfl
    unfold reverse_proxy_headers
    rw [if_pos hcond]
    constructor
    · rw [headerValues_insertHeader_self]
    · rw [headerValues_insertHeader_ne _ _ _ (by decide),
        headerValues_host_step_ne _ (by decide)]
      exact (getHeader_eq_none_iff _ _).mp h1
  · intro hsome
    have hcond : ((getHeader "content-length"
          (reverse_proxy_host_step inHeaders target)).isNone
        && (getHeader "transfer-encoding"
          (reverse_proxy_host_step inHeaders target)).isNone) = false := by
      rw [hCL, hTE]
      rcases hsome with h | h
      · cases hg : getHeader "content-length" inHeaders with
        | none => rw [hg] at h; simp at h
        | some v => rfl
      · cases hg : getHeader "transfer-encoding" inHeaders with
        | none => rw [hg] at h; simp at h
        | some v => simp
    unfold reverse_proxy_headers
    rw [if_neg (by rw [hcond]; exact Bool.false_ne_true)]
    exact headerValues_host_step_ne _ (by decide) inHeaders target

/-- C7 witness: the theorem applied to a concrete body-less inbound request
(no `Content-Length`, no `Transfer-Encoding`). -/
theorem reverse_proxy_transfer_encoding_witness :
    headerValues "transfer-encoding"
        (reverse_proxy_headers [("accept", "*/*")] "up.example:8080")
      = ["chunked"]
    ∧ headerValues "content-length"
        (reverse_proxy_headers [("accept", "*/*")] "up.example:8080")
      = [] :=
  (reverse_proxy_transfer_encoding [("accept", "*/*")] "up.example:8080").1
    ⟨rfl, rfl⟩

/-- The request projection seen by `ProxyHandler::proxy`
(`src/rust_http_proxy/src/proxy.rs`, lines 62–281). -/
structure Req where
  isConnect : Bool
  isHttp2 : Bool
  uriHost : Option String
  uriPort : Option Nat
  uriAuthority : Option String
  hostHeaderVal : Option (List Nat)
  proxyAuthHeaderVal : Option (List Nat)
  headers : List (String × String)
deriving DecidableEq, Repr

/-- The configuration fields `ProxyHandler::proxy` consults. -/
structure ProxyCfg where
  basic_auth : List (List Nat × String)
  never_ask_for_auth : Bool
  wrap_plaintexts : List (String × String × Nat)
deriving DecidableEq, Repr

/-- `wrap_plaintexts.get(&authority)`. -/
def lookupWrap (t : List (String × String × Nat)) (a : String) :
    Option (String × Nat) :=
  (t.find? (fun p => p.1 == a)).map (fun p => p.2)

/-- The `authority` computed at the top of `ProxyHandler::proxy`: the URI
authority for HTTP/2 requests, else the `Host` header decoded with `to_str`
(absent header or failed `to_str` both give `""`). -/
def computeAuthority (req : Req) : String :=
  if req.isHttp2 then req.uriAuthority.getD ""
  else
    match req.hostHeaderVal with
    | none => ""
    | some bs => (toStrOpt bs).getD ""

/-- A minimal HTTP response value: status, header list (in order) and body. -/
structure HttpResponse where
  status : Nat
  headers : List (String × String)
  body : String
deriving DecidableEq, Repr

/-- `build_authenticate_resp` (`proxy.rs`, lines 514–530): status 407 with
`Proxy-Authenticate` for the proxy flavour, 401 with `WWW-Authenticate`
otherwise, body `"auth need"`. -/
def build_authenticate_resp (for_proxy : Bool) : HttpResponse :=
  { status := if for_proxy then 407 else 401
  , headers := [(if for_proxy then "proxy-authenticate" else "www-authenticate",
      "Basic realm=\"are you kidding me\"")]
  , body := "auth need" }

/-- The CONNECT success response (`proxy.rs`, lines 218–227): default status
200, empty body, then `count` copies of `Server: <LOCAL_IP>` appended, where
`count` is drawn by `gen_range(1..2048 / LOCAL_IP.len())`. -/
def connect_response (localIp : String) (count : Nat) : HttpResponse :=
  { status := 200
  , headers := List.replicate count ("server", localIp)
  , body := "" }

/-- The 400 response for a CONNECT whose URI has no authority. -/
def connect_bad_request_resp : HttpResponse :=
  { status := 400, headers := [], body := "CONNECT must be to a socket address" }

/-- What the task spawned by the CONNECT branch does, as a function of the
upgrade result and the `TcpStream::connect` result (`proxy.rs`,
lines 175–217): the dial happens inside the spawned task only after a
successful upgrade, and a failed dial merely logs
`[tunnel establish error]`. -/
inductive TunnelTask where
  | tunnelCopy
  | warnEstablishError
  | warnUpgradeError
deriving DecidableEq, Repr

def connectSpawnedTask (upgradeOk dialOk : Bool) : TunnelTask :=
  if upgradeOk then
    if dialOk then .tunnelCopy else .warnEstablishError
  else .warnUpgradeError

/-- Header strip of the forward branch (`proxy.rs`, lines 236–239). -/
def stripProxyHeaders (hs : List (String × String)) : List (String × String) :=
  removeHeader "proxy-connection" (removeHeader "proxy-authorization" hs)

/-- Result of one `ProxyHandler::proxy` call, by exit point. -/
inductive Outcome where
  | reverseProxy (authority host : String) (port : Nat)
  | errPermissionDeniedWeb
  | serveWeb
  | errPermissionDeniedAuth
  | authChallenge (resp : HttpResponse)
  | connectOk (resp : HttpResponse) (task : TunnelTask) (addr username : String)
  | connectBadRequest (resp : HttpResponse)
  | forward (host : String) (port : Nat) (headers : List (String × String))
      (username : String)
  | panicNoHost
deriving DecidableEq, Repr

/-- The part of `ProxyHandler::proxy` from the `check_auth` call on
(`proxy.rs`, lines 136–280), reached by CONNECT requests and by non-CONNECT
absolute-form HTTP/1 requests that match no reverse-proxy authority. -/
def authPhase (cfg : ProxyCfg) (req : Req) (localIp : String) (count : Nat)
    (upgradeOk dialOk : Bool) : Outcome :=
  let auth := check_auth cfg.basic_auth req.proxyAuthHeaderVal
  if auth.2 = false then
    if cfg.never_ask_for_auth then .errPermissionDeniedAuth
    else .authChallenge (build_authenticate_resp true)
  else
    if req.isConnect then
      match req.uriAuthority with
      | some addr =>
          .connectOk (connect_response localIp count)
            (connectSpawnedTask upgradeOk dialOk) addr auth.1
      | none => .connectBadRequest connect_bad_request_resp
    else
      match req.uriHost with
      | some host =>
          .forward host (req.uriPort.getD 80) (stripProxyHeaders req.headers)
            auth.1
      | none => .panicNoHost

/-- Shallow embedding of the dispatch structure of `ProxyHandler::proxy`
(`proxy.rs`, lines 62–281).  `count` is the value drawn by `gen_range`,
`upgradeOk` and `dialOk` are the outcomes of `hyper::upgrade::on` and
`TcpStream::connect` observed by the spawned CONNECT task. -/
def proxyDispatch (cfg : ProxyCfg) (req : Req) (localIp : String) (count : Nat)
    (upgradeOk dialOk : Bool) : Outcome :=
  if req.isConnect then authPhase cfg req localIp count upgradeOk dialOk
  else
    let authority := computeAuthority req
    match lookupWrap cfg.wrap_plaintexts authority with
    | some hp => .reverseProxy authority hp.1 hp.2
    | none =>
      if req.isHttp2 || req.uriHost.isNone then
        if !cfg.basic_auth.isEmpty && !cfg.never_ask_for_auth then
          .errPermissionDeniedWeb
        else .serveWeb
      else authPhase cfg req localIp count upgradeOk dialOk

/-- C4 counterexample: the claim asserts the empty-table result is exactly
`("unknown", true)`, but the source's username literal is the misspelled
`"unkonwn"`, so at the concrete input (empty table, absent header) the claimed
pair is not returned. -/
theorem check_auth_empty_table_counterexample :
    check_auth [] none ≠ ("unknown", true) := by
  decide

/-- C4 (amended): for every request and any headers, when the credential table
is empty, `check_auth` returns exactly the pair `("unkonwn", true)` (the
misspelled literal from the source). -/
theorem check_auth_empty_table (header : Option (List Nat)) :
    check_auth [] header = ("unkonwn", true) := by
  simp [check_auth]

/-- C1 counterexample: the claim asserts that with a non-empty table an absent
header yields `("unknown", false)`; the source yields the misspelled
`("unkonwn", false)` instead, exhibited at a concrete one-entry table. -/
theorem check_auth_nonempty_table_counterexample :
    check_auth [([66, 97], "alice")] none ≠ ("unknown", false) := by
  decide

/-- C1 (amended): with a non-empty credential table whose keys are visible
ASCII (as the `"Basic " + base64` keys built by config loading are),
`check_auth` returns `authed = true` iff the raw header value equals some key
byte-for-byte; on a hit it returns `(table[value], true)`, and on an absent
header, a header that fails `to_str`, or a lookup miss it returns
`("unkonwn", false)` (the misspelled literal from the source). -/
theorem check_auth_nonempty_table (table : List (List Nat × String))
    (header : Option (List Nat)) (hne : table ≠ [])
    (hkeys : ∀ p ∈ table, p.1.all isVisibleAscii = true) :
    ((check_auth table header).2 = true ↔
      ∃ v, header = some v ∧ ∃ p ∈ table, p.1 = v)
    ∧ (∀ v u, header = some v → lookupAssoc table v = some u →
        check_auth table header = (u, true))
    ∧ (header = none → check_auth table header = ("unkonwn", false))
    ∧ (∀ v, header = some v → v.all isVisibleAscii = false →
        check_auth table header = ("unkonwn", false))
    ∧ (∀ v, header = some v → lookupAssoc table v = none →
        check_auth table header = ("unkonwn", false)) := by
  have hne' : table.isEmpty = false := by
    cases table with
    | nil => exact absurd rfl hne
    | cons a l => rfl
  refine ⟨?_, ?_, ?_, ?_, ?_⟩
  · constructor
    · intro hauthed
      cases header with
      | none => simp [check_auth, hne'] at hauthed
      | some v =>
        by_cases hv : v.all isVisibleAscii = true
        · cases hfind : lookupAssoc table v with
          | none => simp [check_auth, hne', hv, hfind] at hauthed
          | some u =>
            refine ⟨v, rfl, ?_⟩
            unfold lookupAssoc at hfind
            cases hfind2 : table.find? (fun p => p.1 == v) with
            | none => simp [hfind2] at hfind
            | some p =>
              refine ⟨p, List.mem_of_find?_eq_some hfind2, ?_⟩
              have := List.find?_some hfind2
              exact eq_of_beq this
        · have hv' : v.all isVisibleAscii = false := by
            simpa using hv
          simp [check_auth, hne', hv'] at hauthed
    · rintro ⟨v, rfl, p, hp, hpv⟩
      have hv : v.all isVisibleAscii = true := hpv ▸ hkeys p hp
      have hsome : (table.find? (fun q => q.1 == v)).isSome := by
        rw [List.find?_isSome]
        exact ⟨p, hp, by simp [hpv]⟩
      cases hfind : table.find? (fun q => q.1 == v) with
      | none => rw [hfind] at hsome; simp at hsome
      | some q => simp [check_auth, hne', hv, lookupAssoc, hfind]
  · intro v u hv hlook
    subst hv
    have hvascii : v.all isVisibleAscii = true := by
      unfold lookupAssoc at hlook
      cases hfind : table.find? (fun p => p.1 == v) with
      | none => simp [hfind] at hlook
      | some p =>
        have hpv : p.1 = v := by
          have h1 := List.find?_some hfind
          simpa using h1
        exact hpv ▸ hkeys p (List.mem_of_find?_eq_some hfind)
    simp [check_auth, hne', hvascii, hlook]
  · intro hnone
    subst hnone
    simp [check_auth, hne']
  · intro v hv hvf
    subst hv
    simp [check_auth, hne', hvf]
  · intro v hv hlook
    subst hv
    by_cases hvascii : v.all isVisibleAscii = true
    · simp [check_auth, hne', hvascii, hlook]
    · have hv' : v.all isVisibleAscii = false := by simpa using hvascii
      simp [check_auth, hne', hv']

/-- C1 witness: the amended theorem applied at a concrete one-entry table and
a byte-for-byte matching header. -/
theorem check_auth_nonempty_table_witness :
    (check_auth [([66, 97], "alice")] (some [66, 97])).2 = true := by
  exact (check_auth_nonempty_table [([66, 97], "alice")] (some [66, 97])
    (by decide) (by decide)).1.2
    ⟨[66, 97], rfl, ([66, 97], "alice"), by simp, rfl⟩

/-- C3 counterexample: with a non-empty credential table and
`never_ask_for_auth = true`, an origin-form non-CONNECT request that matches
no reverse-proxy authority is *served* (the source guard at `proxy.rs`
lines 98–104 fires on `!never_ask_for_auth`), not rejected with a
permission-denied error as the claim states. -/
theorem proxy_web_guard_counterexample :
    proxyDispatch
      { basic_auth := [([66, 97], "alice")], never_ask_for_auth := true,
        wrap_plaintexts := [] }
      { isConnect := false, isHttp2 := false, uriHost := none, uriPort := none,
        uriAuthority := none, hostHeaderVal := none, proxyAuthHeaderVal := none,
        headers := [] }
      "1.2.3.4" 1 true true = Outcome.serveWeb := by
  rfl

/-- C3 (amended): for a non-CONNECT request matching no reverse-proxy
authority whose URI has no host, when `basic_auth` is non-empty and
`never_ask_for_auth` is *false*, the handler returns a permission-denied
error that closes the connection instead of serving the internal/static
content (so no response — in particular none carrying `Proxy-Authenticate`
or `WWW-Authenticate` — is produced by this branch); when
`never_ask_for_auth` is true the internal/static content is served. -/
theorem proxy_web_guard (cfg : ProxyCfg) (req : Req) (localIp : String)
    (count : Nat) (upgradeOk dialOk : Bool)
    (hmethod : req.isConnect = false)
    (hwrap : lookupWrap cfg.wrap_plaintexts (computeAuthority req) = none)
    (hhost : req.uriHost = none)
    (hauth : cfg.basic_auth ≠ []) :
    (cfg.never_ask_for_auth = false →
      proxyDispatch cfg req localIp count upgradeOk dialOk
        = Outcome.errPermissionDeniedWeb)
    ∧ (cfg.never_ask_for_auth = true →
      proxyDispatch cfg req localIp count upgradeOk dialOk
        = Outcome.serveWeb) := by
  have hne : cfg.basic_auth.isEmpty = false := by
    cases h : cfg.basic_auth with
    | nil => exact absurd h hauth
    | cons a l => rfl
  constructor
  · intro hnever
    simp [proxyDispatch, hmethod, hwrap, hhost, hne, hnever]
  · intro hnever
    simp [proxyDispatch, hmethod, hwrap, hhost, hne, hnever]

/-- C3 witness: the amended theorem applied at a concrete configuration with
one credential and `never_ask_for_auth = false`. -/
theorem proxy_web_guard_witness :
    proxyDispatch
      { basic_auth := [([66, 97], "alice")], never_ask_for_auth := false,
        wrap_plaintexts := [] }
      { isConnect := false, isHttp2 := false, uriHost := none, uriPort := none,
        uriAuthority := none, hostHeaderVal := none, proxyAuthHeaderVal := none,
        headers := [] }
      "1.2.3.4" 1 true true = Outcome.errPermissionDeniedWeb :=
  (proxy_web_guard
    { basic_auth := [([66, 97], "alice")], never_ask_for_auth := false,
      wrap_plaintexts := [] }
    { isConnect := false, isHttp2 := false, uriHost := none, uriPort := none,
      uriAuthority := none, hostHeaderVal := none, proxyAuthHeaderVal := none,
      headers := [] }
    "1.2.3.4" 1 true true rfl rfl rfl (by decide)).1 rfl

theorem proxyDispatch_reaches_auth (cfg : ProxyCfg) (req : Req)
    (localIp : String) (count : Nat) (upgradeOk dialOk : Bool)
    (hreach : req.isConnect = true ∨
      (req.isHttp2 = false ∧ req.uriHost.isSome = true
        ∧ lookupWrap cfg.wrap_plaintexts (computeAuthority req) = none)) :
    proxyDispatch cfg req localIp count upgradeOk dialOk
      = authPhase cfg req localIp count upgradeOk dialOk := by
  rcases hreach with hc | ⟨h2, hh, hw⟩
  · simp [proxyDispatch, hc]
  · by_cases hc : req.isConnect = true
    · simp [proxyDispatch, hc]
    · have hc' : req.isConnect = false := by simpa using hc
      have hhn : req.uriHost.isNone = false := by
        cases hx : req.uriHost with
        | none => rw [hx] at hh; simp at hh
        | some a => rfl
      simp [proxyDispatch, hc', hw, h2, hhn]

/-- C5: for a CONNECT or forward-proxy request that fails authentication, the
handler returns a permission-denied error (closing the connection with no
response) when `never_ask_for_auth` is true, and otherwise a response with
status 407 carrying `Proxy-Authenticate: Basic realm="are you kidding me"`. -/
theorem proxy_auth_failure (cfg : ProxyCfg) (req : Req) (localIp : String)
    (count : Nat) (upgradeOk dialOk : Bool)
    (hreach : req.isConnect = true ∨
      (req.isHttp2 = false ∧ req.uriHost.isSome = true
        ∧ lookupWrap cfg.wrap_plaintexts (computeAuthority req) = none))
    (hfail : (check_auth cfg.basic_auth req.proxyAuthHeaderVal).2 = false) :
    (cfg.never_ask_for_auth = true →
      proxyDispatch cfg req localIp count upgradeOk dialOk
        = Outcome.errPermissionDeniedAuth)
    ∧ (cfg.never_ask_for_auth = false →
      proxyDispatch cfg req localIp count upgradeOk dialOk
        = Outcome.authChallenge (build_authenticate_resp true)
      ∧ (build_authenticate_resp true).status = 407
      ∧ (build_authenticate_resp true).headers
          = [("proxy-authenticate", "Basic realm=\"are you kidding me\"")]) := by
  rw [proxyDispatch_reaches_auth cfg req localIp count upgradeOk dialOk hreach]
  constructor
  · intro hnever
    simp [authPhase, hfail, hnever]
  · intro hnever
    refine ⟨?_, rfl, rfl⟩
    simp [authPhase, hfail, hnever]

/-- C5 witness: a CONNECT request with no `Proxy-Authorization` header
against a one-credential silent-mode configuration is rejected by closing
the connection. -/
theorem proxy_auth_failure_witness :
    proxyDispatch
      { basic_auth := [([66, 97], "alice")], never_ask_for_auth := true,
        wrap_plaintexts := [] }
      { isConnect := true, isHttp2 := false, uriHost := none, uriPort := none,
        uriAuthority := some "example.com:443", hostHeaderVal := none,
        proxyAuthHeaderVal := none, headers := [] }
      "1.2.3.4" 1 true true = Outcome.errPermissionDeniedAuth :=
  (proxy_auth_failure
    { basic_auth := [([66, 97], "alice")], never_ask_for_auth := true,
      wrap_plaintexts := [] }
    { isConnect := true, isHttp2 := false, uriHost := none, uriPort := none,
      uriAuthority := some "example.com:443", hostHeaderVal := none,
      proxyAuthHeaderVal := none, headers := [] }
    "1.2.3.4" 1 true true (Or.inl rfl) rfl).1 rfl

theorem headerValues_replicate (n : Nat) (name v : String) :
    headerValues name (List.replicate n (name, v)) = List.replicate n v := by
  induction n with
  | zero => rfl
  | succ k ih =>
    simp only [List.replicate_succ]
    unfold headerValues at ih ⊢
    rw [List.filter_cons]
    simp only [beq_self_eq_true, if_true, List.map_cons]
    rw [ih]

/-- C8: an authenticated CONNECT request whose URI has an authority is
answered with a 200 response with empty body whose headers are exactly
`count` copies of `Server: <LOCAL_IP>`, where `count` is the `gen_range`
draw from `1..2048 / LOCAL_IP.len()`; in particular at least one `Server`
header is present. -/
theorem proxy_connect_response_padding (cfg : ProxyCfg) (req : Req)
    (localIp : String) (count : Nat) (upgradeOk dialOk : Bool) (addr : String)
    (hc : req.isConnect = true)
    (hauth : (check_auth cfg.basic_auth req.proxyAuthHeaderVal).2 = true)
    (haddr : req.uriAuthority = some addr)
    (hlo : 1 ≤ count) (_hhi : count < 2048 / localIp.length) :
    proxyDispatch cfg req localIp count upgradeOk dialOk
      = Outcome.connectOk (connect_response localIp count)
          (connectSpawnedTask upgradeOk dialOk) addr
          (check_auth cfg.basic_auth req.proxyAuthHeaderVal).1
    ∧ (connect_response localIp count).status = 200
    ∧ (connect_response localIp count).body = ""
    ∧ (connect_response localIp count).headers
        = List.replicate count ("server", localIp)
    ∧ 1 ≤ (headerValues "server" (connect_response localIp count).headers).length := by
  refine ⟨?_, rfl, rfl, rfl, ?_⟩
  · rw [proxyDispatch_reaches_auth _ _ _ _ _ _ (Or.inl hc)]
    simp [authPhase, hauth, hc, haddr]
  · show 1 ≤ (headerValues "server" (List.replicate count ("server", localIp))).length
    rw [headerValues_replicate]
    simpa using hlo

/-- C8 witness: concrete authenticated CONNECT against an empty credential
table, padding count 1 drawn from `1..2048 / 7`. -/
theorem proxy_connect_response_padding_witness :
    proxyDispatch
      { basic_auth := [], never_ask_for_auth := false, wrap_plaintexts := [] }
      { isConnect := true, isHttp2 := false, uriHost := none, uriPort := none,
        uriAuthority := some "example.com:443", hostHeaderVal := none,
        proxyAuthHeaderVal := none, headers := [] }
      "1.2.3.4" 1 true true
      = Outcome.connectOk (connect_response "1.2.3.4" 1)
          (connectSpawnedTask true true) "example.com:443" "unkonwn" :=
  (proxy_connect_response_padding
    { basic_auth := [], never_ask_for_auth := false, wrap_plaintexts := [] }
    { isConnect := true, isHttp2 := false, uriHost := none, uriPort := none,
      uriAuthority := some "example.com:443", hostHeaderVal := none,
      proxyAuthHeaderVal := none, headers := [] }
    "1.2.3.4" 1 true true "example.com:443" rfl rfl rfl (by decide)
    (by decide)).1

/-- C9: for an authenticated CONNECT with an authority, the returned outcome
carries one and the same 200 response for every dial result — the
`TcpStream::connect` to the target runs inside the separately spawned task
(only after a successful upgrade), and a dial failure yields only the
`[tunnel establish error]` log, never an error response. -/
theorem proxy_connect_dial_isolation (cfg : ProxyCfg) (req : Req)
    (localIp : String) (count : Nat) (addr : String)
    (hc : req.isConnect = true)
    (hauth : (check_auth cfg.basic_auth req.proxyAuthHeaderVal).2 = true)
    (haddr : req.uriAuthority = some addr) :
    (∀ upgradeOk dialOk : Bool,
      proxyDispatch cfg req localIp count upgradeOk dialOk
        = Outcome.connectOk (connect_response localIp count)
            (connectSpawnedTask upgradeOk dialOk) addr
            (check_auth cfg.basic_auth req.proxyAuthHeaderVal).1)
    ∧ connectSpawnedTask true false = TunnelTask.warnEstablishError
    ∧ (∀ dialOk : Bool,
        connectSpawnedTask false dialOk = TunnelTask.warnUpgradeError) := by
  refine ⟨?_, rfl, fun _ => rfl⟩
  intro upgradeOk dialOk
  rw [proxyDispatch_reaches_auth _ _ _ _ _ _ (Or.inl hc)]
  simp [authPhase, hauth, hc, haddr]

/-- C9 witness: the theorem applied at a concrete CONNECT request, read off
at a failing dial. -/
theorem proxy_connect_dial_isolation_witness :
    proxyDispatch
      { basic_auth := [], never_ask_for_auth := false, wrap_plaintexts := [] }
      { isConnect := true, isHttp2 := false, uriHost := none, uriPort := none,
        uriAuthority := some "example.com:443", hostHeaderVal := none,
        proxyAuthHeaderVal := none, headers := [] }
      "1.2.3.4" 1 true false
      = Outcome.connectOk (connect_response "1.2.3.4" 1)
          (connectSpawnedTask true false) "example.com:443" "unkonwn" :=
  (proxy_connect_dial_isolation
    { basic_auth := [], never_ask_for_auth := false, wrap_plaintexts := [] }
    { isConnect := true, isHttp2 := false, uriHost := none, uriPort := none,
      uriAuthority := some "example.com:443", hostHeaderVal := none,
      proxyAuthHeaderVal := none, headers := [] }
    "1.2.3.4" 1 "example.com:443" rfl rfl rfl).1 true false

/-- C10: the `expect("uri has no host")` of the forward branch is
unreachable: no input to the dispatcher — any method, version, URI shape,
configuration, padding draw or tunnel outcome — produces the panic outcome,
because origin-form and HTTP/2 non-CONNECT requests are diverted to the
reverse-proxy or internal-content branches before the forward branch. -/
theorem proxy_forward_no_panic (cfg : ProxyCfg) (req : Req) (localIp : String)
    (count : Nat) (upgradeOk dialOk : Bool) :
    proxyDispatch cfg req localIp count upgradeOk dialOk
      ≠ Outcome.panicNoHost := by
  by_cases hc : req.isConnect = true
  · simp only [proxyDispatch, authPhase, hc, if_true]
    split
    · split <;> simp
    · cases req.uriAuthority <;> simp
  · have hc' : req.isConnect = false := by simpa using hc
    simp only [proxyDispatch, authPhase, hc', Bool.false_eq_true, if_false]
    cases hw : lookupWrap cfg.wrap_plaintexts (computeAuthority req) with
    | some hp => simp
    | none =>
      by_cases hweb : (req.isHttp2 || req.uriHost.isNone) = true
      · simp only [hweb, if_true]
        split <;> simp
      · simp only [hweb, if_false]
        have hh : ∃ h, req.uriHost = some h := by
          cases hx : req.uriHost with
          | some a => exact ⟨a, rfl⟩
          | none =>
            exfalso
            apply hweb
            simp [hx]
        obtain ⟨h, hh⟩ := hh
        simp only [hc', Bool.false_eq_true, if_false, hh]
        split
        · split <;> simp
        · simp

end RustHttpProxy

namespace RustHttpProxySupervisor

/-- The per-connection `Context` of `src/src/main.rs` (lines 50–68):
a last-activity timestamp (`Instant`, modelled as `Nat`) and the `upgraded`
flag. -/
structure ConnContext where
  instant : Nat
  upgraded : Bool
deriving DecidableEq, Repr

/-- `Context::refresh`: set `instant` to the current time. -/
def ConnContext.refresh (ctx : ConnContext) (now : Nat) : ConnContext :=
  { ctx with instant := now }

/-- What one wakeup of the idle-timer loop does. -/
inductive WakeupResult where
  | shutdown
  | continueWith (ctx : ConnContext)
deriving DecidableEq, Repr

/-- Shallow embedding of one idle-timer wakeup of the connection supervisor
(`src/src/main.rs`, lines 149–176 and 216–243): the loop recorded
`last` (the context timestamp read before sleeping `IDLE_SECONDS`), wakes at
time `now`, re-reads `(upgraded, instant)`, calls `graceful_shutdown` iff
`!upgraded && instant <= last`, and otherwise — refreshing the timestamp
first when `upgraded` — loops. -/
def supervisorWakeup (ctx : ConnContext) (last now : Nat) : WakeupResult :=
  if ctx.upgraded = false ∧ ctx.instant ≤ last then .shutdown
  else if ctx.upgraded then .continueWith (ctx.refresh now)
  else .continueWith ctx

/-- C2: the supervisor never shuts a connection down while `upgraded` is
true — on such a wakeup it refreshes the activity timestamp and loops — and
it shuts down only when `upgraded` is false and the current activity
timestamp is not newer than the one observed `IDLE_TIMEOUT` earlier. -/
theorem supervisor_upgraded_never_shutdown (ctx : ConnContext) (last now : Nat) :
    (ctx.upgraded = true →
      supervisorWakeup ctx last now = .continueWith (ctx.refresh now))
    ∧ (supervisorWakeup ctx last now = .shutdown →
      ctx.upgraded = false ∧ ctx.instant ≤ last) := by
  constructor
  · intro h
    simp [supervisorWakeup, h]
  · intro h
    by_cases hu : ctx.upgraded = false
    · by_cases hi : ctx.instant ≤ last
      · exact ⟨hu, hi⟩
      · simp [supervisorWakeup, hu, hi] at h
    · have hu' : ctx.upgraded = true := by simpa using hu
      simp [supervisorWakeup, hu'] at h

/-- C2 witness: a wakeup of an upgraded connection at a concrete state
refreshes the timestamp instead of shutting down. -/
theorem supervisor_upgraded_never_shutdown_witness :
    supervisorWakeup { instant := 5, upgraded := true } 5 20
      = WakeupResult.continueWith { instant := 20, upgraded := true } :=
  (supervisor_upgraded_never_shutdown { instant := 5, upgraded := true } 5 20).1
    rfl

end RustHttpProxySupervisor
